import Mathlib

/-!
Verification of the competitive-intelligence content pipeline.

Shallow embedding of the repository's cache layer (src/utils/cache_manager.py),
research orchestrator (src/agents/research_agent.py) and content agent
(src/agents/content_agent.py), with theorems settling the frozen claims.

Modelling conventions:
  - Python strings are Lean String; Python str.lower / str.strip / slicing /
    str.split / str.join / str.endswith are modelled by explicit functions over
    String.data so every definition is a transparent list-of-Char program.
  - Timestamps (datetime.now) are Int seconds; timedelta(hours=h) is h * 3600.
  - The cache directory is an association list of (filename, file content);
    file content is an inductive that distinguishes a well-formed cache entry,
    a parseable entry whose data payload is missing, and an unreadable file.
  - Exceptions caught by the source's try/except blocks are modelled by Option
    results from the external collaborators and by explicit failure flags for
    filesystem operations; a Lean function being total models the source
    operation never raising past its boundary.
  - hashlib.md5 is implemented in full (RFC 1321) over Nat arithmetic mod 2^32.
-/

/-! ## Python string primitives modelled over List Char -/

/-- Model of Python str.lower (ASCII case folding, as Char.toLower provides). -/
def pyLower (s : String) : String := String.mk (s.data.map Char.toLower)

/-- Model of Python str.strip: drop whitespace from both ends. -/
def pyStrip (s : String) : String :=
  String.mk (((s.data.dropWhile Char.isWhitespace).reverse.dropWhile Char.isWhitespace).reverse)

/-- Model of Python slicing s[:n] (by characters). -/
def pySlice (s : String) (n : Nat) : String := String.mk (s.data.take n)

/-- Model of Python str.endswith. -/
def pyEndsWith (s suf : String) : Bool := suf.data.isSuffixOf s.data

/-- Split a character list at every occurrence of the separator, keeping empty
parts, exactly like Python str.split with an explicit separator. -/
def splitChar (c : Char) : List Char → List (List Char)
  | [] => [[]]
  | x :: xs =>
    let r := splitChar c xs
    if x = c then [] :: r
    else
      match r with
      | h :: t => (x :: h) :: t
      | [] => [[x]]

/-- Join character lists with a separator character, like Python sep.join. -/
def joinChar (c : Char) : List (List Char) → List Char
  | [] => []
  | [p] => p
  | p :: q :: ps => p ++ c :: joinChar c (q :: ps)

/-- Model of Python post.split chr(10). -/
def pySplit (s : String) : List String := (splitChar '\n' s.data).map String.mk

/-- Model of Python chr(10).join(lines). -/
def pyJoin (ls : List String) : String := String.mk (joinChar '\n' (ls.map String.data))

/-! ## MD5 (hashlib.md5) over Nat, all words reduced mod 2^32 -/

/-- UTF-8 encoding of one character, as Python str.encode produces. -/
def utf8Encode (c : Char) : List Nat :=
  let n := c.toNat
  if n < 128 then [n]
  else if n < 2048 then [192 + n / 64, 128 + n % 64]
  else if n < 65536 then [224 + n / 4096, 128 + (n / 64) % 64, 128 + n % 64]
  else [240 + n / 262144, 128 + (n / 4096) % 64, 128 + (n / 64) % 64, 128 + n % 64]

/-- UTF-8 bytes of a string. -/
def strBytes (s : String) : List Nat := s.data.foldr (fun c acc => utf8Encode c ++ acc) []

/-- Left rotation of a 32-bit word. -/
def rotl32 (x s : Nat) : Nat := ((x <<< s) ||| (x >>> (32 - s))) % 4294967296

/-- Bitwise complement within 32 bits (inputs are always in range). -/
def mnot (x : Nat) : Nat := 4294967295 - x

/-- MD5 auxiliary function F. -/
def mdF (b c d : Nat) : Nat := (b &&& c) ||| (mnot b &&& d)

/-- MD5 auxiliary function G. -/
def mdG (b c d : Nat) : Nat := (d &&& b) ||| (mnot d &&& c)

/-- MD5 auxiliary function H. -/
def mdH (b c d : Nat) : Nat := b ^^^ c ^^^ d

/-- MD5 auxiliary function I. -/
def mdI (b c d : Nat) : Nat := c ^^^ (b ||| mnot d)

/-- MD5 per-round sine-derived constant table (RFC 1321). -/
def mdK : List Nat :=
  [0xd76aa478, 0xe8c7b756, 0x242070db, 0xc1bdceee,
   0xf57c0faf, 0x4787c62a, 0xa8304613, 0xfd469501,
   0x698098d8, 0x8b44f7af, 0xffff5bb1, 0x895cd7be,
   0x6b901122, 0xfd987193, 0xa679438e, 0x49b40821,
   0xf61e2562, 0xc040b340, 0x265e5a51, 0xe9b6c7aa,
   0xd62f105d, 0x02441453, 0xd8a1e681, 0xe7d3fbc8,
   0x21e1cde6, 0xc33707d6, 0xf4d50d87, 0x455a14ed,
   0xa9e3e905, 0xfcefa3f8, 0x676f02d9, 0x8d2a4c8a,
   0xfffa3942, 0x8771f681, 0x6d9d6122, 0xfde5380c,
   0xa4beea44, 0x4bdecfa9, 0xf6bb4b60, 0xbebfbc70,
   0x289b7ec6, 0xeaa127fa, 0xd4ef3085, 0x04881d05,
   0xd9d4d039, 0xe6db99e5, 0x1fa27cf8, 0xc4ac5665,
   0xf4292244, 0x432aff97, 0xab9423a7, 0xfc93a039,
   0x655b59c3, 0x8f0ccc92, 0xffeff47d, 0x85845dd1,
   0x6fa87e4f, 0xfe2ce6e0, 0xa3014314, 0x4e0811a1,
   0xf7537e82, 0xbd3af235, 0x2ad7d2bb, 0xeb86d391]

/-- MD5 per-round shift amounts (RFC 1321). -/
def mdS : List Nat :=
  [7, 12, 17, 22, 7, 12, 17, 22, 7, 12, 17, 22, 7, 12, 17, 22,
   5, 9, 14, 20, 5, 9, 14, 20, 5, 9, 14, 20, 5, 9, 14, 20,
   4, 11, 16, 23, 4, 11, 16, 23, 4, 11, 16, 23, 4, 11, 16, 23,
   6, 10, 15, 21, 6, 10, 15, 21, 6, 10, 15, 21, 6, 10, 15, 21]

/-- Little-endian word from up to four bytes. -/
def bytesToWordLE (bs : List Nat) : Nat :=
  bs.getD 0 0 + 256 * bs.getD 1 0 + 65536 * bs.getD 2 0 + 16777216 * bs.getD 3 0

/-- Little-endian bytes of a 32-bit word. -/
def wordLE (x : Nat) : List Nat :=
  [x % 256, (x >>> 8) % 256, (x >>> 16) % 256, (x >>> 24) % 256]

/-- One MD5 round: rotate the state through the round function for index i. -/
def md5Round (M : List Nat) (st : Nat × Nat × Nat × Nat) (i : Nat) : Nat × Nat × Nat × Nat :=
  let (a, b, c, d) := st
  let fg : Nat × Nat :=
    if i < 16 then (mdF b c d, i)
    else if i < 32 then (mdG b c d, (5 * i + 1) % 16)
    else if i < 48 then (mdH b c d, (3 * i + 5) % 16)
    else (mdI b c d, (7 * i) % 16)
  let f := (fg.1 + a + mdK.getD i 0 + M.getD fg.2 0) % 4294967296
  (d, (b + rotl32 f (mdS.getD i 0)) % 4294967296, b, c)

/-- Process one 64-byte chunk. -/
def md5Chunk (st : Nat × Nat × Nat × Nat) (chunk : List Nat) : Nat × Nat × Nat × Nat :=
  let M := (List.range 16).map (fun j => bytesToWordLE ((chunk.drop (4 * j)).take 4))
  let (a0, b0, c0, d0) := st
  let (a, b, c, d) := (List.range 64).foldl (md5Round M) st
  ((a0 + a) % 4294967296, (b0 + b) % 4294967296, (c0 + c) % 4294967296, (d0 + d) % 4294967296)

/-- MD5 padding: 0x80, zeros to 56 mod 64, then the 64-bit little-endian bit length. -/
def md5Pad (msg : List Nat) : List Nat :=
  let len := msg.length
  let zeros := (119 - len % 64) % 64
  let bitLen := (8 * len) % 18446744073709551616
  msg ++ [128] ++ List.replicate zeros 0 ++ (List.range 8).map (fun i => (bitLen >>> (8 * i)) % 256)

/-- Cut a byte list into 64-byte chunks; the fuel argument (at least the list
length) makes the recursion structural. -/
def chunks64Go : Nat → List Nat → List (List Nat)
  | _, [] => []
  | 0, _ :: _ => []
  | fuel + 1, x :: xs => ((x :: xs).take 64) :: chunks64Go fuel ((x :: xs).drop 64)

/-- Cut a byte list into 64-byte chunks. -/
def chunks64 (l : List Nat) : List (List Nat) := chunks64Go l.length l

/-- MD5 digest bytes of a byte message. -/
def md5Bytes (msg : List Nat) : List Nat :=
  let padded := md5Pad msg
  let (a, b, c, d) := (chunks64 padded).foldl md5Chunk (1732584193, 4023233417, 2562383102, 271733878)
  wordLE a ++ wordLE b ++ wordLE c ++ wordLE d

/-- Lowercase hex digit. -/
def hexDigit (n : Nat) : Char := if n < 10 then Char.ofNat (48 + n) else Char.ofNat (87 + n)

/-- Lowercase hex rendering of a byte list. -/
def toHex (bs : List Nat) : String :=
  String.mk (bs.foldr (fun b acc => hexDigit (b / 16) :: hexDigit (b % 16) :: acc) [])

/-- Model of hashlib.md5(key_string.encode()).hexdigest(). -/
def md5Hex (s : String) : String := toHex (md5Bytes (strBytes s))

/-! ## Cache key derivation (CacheManager._get_cache_key / _get_cache_path) -/

/-- The pre-hash key string from CacheManager._get_cache_key:
topic.lower() joined to research_type.lower() with an underscore. -/
def keyString (topic research_type : String) : String :=
  pyLower topic ++ "_" ++ pyLower research_type

/-- CacheManager._get_cache_key: MD5 hex digest of the key string. -/
def getCacheKey (topic research_type : String) : String := md5Hex (keyString topic research_type)

/-- CacheManager._get_cache_path: the filename inside the cache directory
(os.path.join with the directory is modelled by working relative to it). -/
def getCachePath (cacheKey : String) : String := cacheKey ++ ".json"

/-- Filename a (topic, research_type) request addresses. -/
def cachePath (topic research_type : String) : String :=
  getCachePath (getCacheKey topic research_type)

/-! ## Data model: research records and the on-disk cache -/

/-- Processed news article as ResearchAgent._search_news produces
(title, description, url, source name, formatted published_at). -/
structure Article where
  title : String
  description : String
  url : String
  source : String
  published_at : String
deriving DecidableEq

/-- Web search result record (title, link, snippet). -/
structure WebResult where
  title : String
  link : String
  snippet : String
deriving DecidableEq

/-- The results dictionary ResearchAgent.research_topic assembles.
The timestamp field holds datetime.now().isoformat(), modelled as Int seconds. -/
structure ResearchRecord where
  topic : String
  research_type : String
  timestamp : Int
  news_articles : List Article
  web_results : List WebResult
  summary : String
  insights : String
  key_facts : String
  sentiment : String
  cached : Bool
deriving DecidableEq

/-- Content of one file in the cache directory.  CacheManager.set writes a JSON
object with keys topic, research_type, cached_at (ISO timestamp, modelled as
Int seconds) and data.  entryNoData is a file that parses and has a valid
cached_at but no usable data key; corrupt is any file json.load or
datetime.fromisoformat cannot process (invalid JSON, missing or malformed
cached_at, unreadable bytes). -/
inductive CacheFile where
  | entry (topic research_type : String) (cached_at : Int) (data : ResearchRecord)
  | entryNoData (topic research_type : String) (cached_at : Int)
  | corrupt
deriving DecidableEq

/-- The cache directory: filenames paired with file contents, in listdir order. -/
abbrev CacheStore : Type := List (String × CacheFile)

/-- Look a filename up in the directory (os.path.exists + open). -/
def storeFind : CacheStore → String → Option CacheFile
  | [], _ => none
  | (n, f) :: rest, path => if n = path then some f else storeFind rest path

/-- Write a file: replace the content if the name exists, else create it. -/
def storeWrite : CacheStore → String → CacheFile → CacheStore
  | [], path, f => [(path, f)]
  | (n, g) :: rest, path, f =>
    if n = path then (path, f) :: rest else (n, g) :: storeWrite rest path f

/-- os.remove: drop every file with the given name. -/
def storeRemove : CacheStore → String → CacheStore
  | [], _ => []
  | (n, g) :: rest, path =>
    if n = path then storeRemove rest path else (n, g) :: storeRemove rest path

/-- timedelta(hours = h) in seconds. -/
def hoursToSeconds (h : Int) : Int := h * 3600

/-- CacheManager.get: derive the key; a missing file is None; an unreadable or
dataless file raises inside the try block and is caught to None; a well-formed
entry is returned iff its age now - cached_at is strictly below the ttl. -/
def cacheGet (store : CacheStore) (topic research_type : String) (now ttl : Int) :
    Option ResearchRecord :=
  match storeFind store (cachePath topic research_type) with
  | none => none
  | some CacheFile.corrupt => none
  | some (CacheFile.entryNoData _ _ _) => none
  | some (CacheFile.entry _ _ cached_at data) =>
    if now - cached_at < ttl then some data else none

/-- CacheManager.set: write the entry with cached_at = now and return True; a
failing write (open or json.dump raising) is caught and reported as False.
The failure mode modelled is open() itself failing, which leaves the store
unchanged. -/
def cacheSet (store : CacheStore) (topic research_type : String) (data : ResearchRecord)
    (now : Int) (writeOk : Bool) : CacheStore × Bool :=
  if writeOk then
    (storeWrite store (cachePath topic research_type)
      (CacheFile.entry topic research_type now data), true)
  else (store, false)

/-- CacheManager.invalidate: remove the derived file if it exists. -/
def cacheInvalidate (store : CacheStore) (topic research_type : String) : CacheStore × Bool :=
  let path := cachePath topic research_type
  match storeFind store path with
  | some _ => (storeRemove store path, true)
  | none => (store, false)

/-- Loop body of CacheManager.clear_all: walk the listdir names, removing each
name that ends in .json and counting; failAt counts down to the os.remove call
that raises (none = no removal fails).  Returns the directory after the walk
and some count on success, none when a removal raised. -/
def clearAllGo : CacheStore → List String → Nat → Option Nat → CacheStore × Option Nat
  | st, [], count, _ => (st, some count)
  | st, n :: ns, count, failAt =>
    if pyEndsWith n ".json" then
      match failAt with
      | some 0 => (st, none)
      | some (k + 1) => clearAllGo (storeRemove st n) ns (count + 1) (some k)
      | none => clearAllGo (storeRemove st n) ns (count + 1) none
    else clearAllGo st ns count failAt

/-- CacheManager.clear_all: remove every .json file and return how many; any
exception (a failing os.listdir, modelled by listOk = false, or a failing
os.remove, modelled by failAt) is caught and the method returns 0, keeping
whatever partial deletions already happened. -/
def clearAll (store : CacheStore) (listOk : Bool) (failAt : Option Nat) : CacheStore × Nat :=
  if listOk then
    match clearAllGo store (store.map Prod.fst) 0 failAt with
    | (st, some c) => (st, c)
    | (st, none) => (st, 0)
  else (store, 0)

/-- Statistics record returned by CacheManager.get_cache_stats (the success
path also carries a ttl_hours field, which no claim concerns). -/
structure CacheStats where
  total : Nat
  valid : Nat
  expired : Nat
deriving DecidableEq

/-- Whether json.load plus the cached_at parse succeed on a file. -/
def parses : CacheFile → Bool
  | CacheFile.corrupt => false
  | _ => true

/-- cached_at of a parseable file. -/
def fileCachedAt : CacheFile → Option Int
  | CacheFile.entry _ _ c _ => some c
  | CacheFile.entryNoData _ _ c => some c
  | CacheFile.corrupt => none

/-- Classification loop of get_cache_stats: accumulate valid and expired
counts; the first unreadable file raises out of the whole loop (none). -/
def statsGo (now ttl : Int) : List (String × CacheFile) → Nat → Nat → Option (Nat × Nat)
  | [], v, e => some (v, e)
  | (_, f) :: rest, v, e =>
    match fileCachedAt f with
    | none => none
    | some c =>
      if now - c < ttl then statsGo now ttl rest (v + 1) e else statsGo now ttl rest v (e + 1)

/-- CacheManager.get_cache_stats: census of the .json files; total is computed
before the loop, and any exception inside the try block yields the zero
record. -/
def getCacheStats (store : CacheStore) (now ttl : Int) : CacheStats :=
  let files := store.filter (fun p => pyEndsWith p.1 ".json")
  match statsGo now ttl files 0 0 with
  | some (v, e) => ⟨files.length, v, e⟩
  | none => ⟨0, 0, 0⟩

/-! ## Research agent (src/agents/research_agent.py) -/

/-- Application configuration (src/config/config.py); the fields the research
pipeline reads. -/
structure Config where
  CACHE_ENABLED : Bool
  CACHE_TTL_HOURS : Int
  MAX_SEARCH_RESULTS : Nat
  RESEARCH_DAYS_BACK : Nat

/-- The values config.py assigns. -/
def defaultConfig : Config := ⟨true, 24, 10, 30⟩

/-- The ttl the CacheManager constructed by ResearchAgent uses. -/
def ttlSeconds (cfg : Config) : Int := hoursToSeconds cfg.CACHE_TTL_HOURS

/-- One Completion Service invocation, identified by its call site and the
inputs interpolated into that site's prompt template (prompt wording itself is
out of scope, per the spec's non-goals). -/
inductive LlmCall where
  | summary (topic content : String)
  | insights (topic summaryText : String)
  | keyFacts (content : String)
  | sentiment (text : String)
  | improveHook (currentHook topic : String)
deriving DecidableEq

/-- One attempted external call, in attempt order. -/
inductive ExtCall where
  | searchNews (query : String)
  | searchWeb (query : String)
  | completion (call : LlmCall)
deriving DecidableEq

/-- External world: the Search and Completion collaborators (none = the call
raised, including the empty-response case call_openai turns into an error);
the clock; and whether a cache write would succeed. -/
structure Env where
  news : String → Option (List Article)
  web : String → Option (List WebResult)
  llm : LlmCall → Option String
  now : Int
  writeOk : Bool

/-- ResearchAgent._search_news: ask the news collaborator, keep the first
MAX_SEARCH_RESULTS processed articles; any exception yields []. -/
def searchNewsFn (cfg : Config) (env : Env) (q : String) : List Article :=
  match env.news q with
  | some arts => arts.take cfg.MAX_SEARCH_RESULTS
  | none => []

/-- ResearchAgent._search_web: ask the web collaborator (num_results = 5);
any exception yields []. -/
def searchWebFn (env : Env) (q : String) : List WebResult :=
  match env.web q with
  | some rs => rs
  | none => []

/-- The content blob _generate_summary concatenates: topic header, first five
news articles (description line only when non-empty), first three web results. -/
def buildContent (topic : String) (news : List Article) (web : List WebResult) : String :=
  let c0 := "Topic: " ++ topic ++ "\n\n" ++ "Recent News:\n"
  let c1 := (news.take 5).foldl
    (fun acc a =>
      acc ++ "- " ++ a.title ++ "\n" ++
        (if a.description = "" then "" else "  " ++ a.description ++ "\n")) c0
  let c2 := c1 ++ "\nWeb Results:\n"
  (web.take 3).foldl (fun acc r => acc ++ "- " ++ r.title ++ "\n" ++ "  " ++ r.snippet ++ "\n") c2

/-- ResearchAgent._generate_summary: summarize the blob via the Completion
Service; on failure fall back to the raw blob. -/
def generateSummary (llm : LlmCall → Option String) (topic : String) (news : List Article)
    (web : List WebResult) : String :=
  let content := buildContent topic news web
  match llm (LlmCall.summary topic content) with
  | some s => s
  | none => content

/-- ResearchAgent._extract_insights: on failure fall back to the apology. -/
def extractInsights (llm : LlmCall → Option String) (topic summaryText : String) : String :=
  match llm (LlmCall.insights topic summaryText) with
  | some s => s
  | none => "Unable to extract insights"

/-- ResearchAgent._extract_key_facts: on failure fall back to the empty string. -/
def extractKeyFacts (llm : LlmCall → Option String) (summaryText : String) : String :=
  match llm (LlmCall.keyFacts summaryText) with
  | some s => s
  | none => ""

/-- ResearchAgent._analyze_sentiment: the stripped Completion output on
success (the prompt sees only the first 500 characters), Neutral on failure. -/
def analyzeSentiment (llm : LlmCall → Option String) (text : String) : String :=
  match llm (LlmCall.sentiment (pySlice text 500)) with
  | some s => pyStrip s
  | none => "Neutral"

/-- Miss path of ResearchAgent.research_topic: run the fan-out, whose attempted
external calls are listed in source order, assemble the results dict with
cached = False, and write it back when caching is enabled, ignoring the write
outcome.  Returns (record, directory after the call, attempted external
calls). -/
def freshResearch (cfg : Config) (env : Env) (store : CacheStore)
    (topic research_type : String) : ResearchRecord × CacheStore × List ExtCall :=
  let news := searchNewsFn cfg env topic
  let web := searchWebFn env topic
  let summaryText := generateSummary env.llm topic news web
  let results : ResearchRecord :=
    ⟨topic, research_type, env.now, news, web, summaryText,
      extractInsights env.llm topic summaryText,
      extractKeyFacts env.llm summaryText,
      analyzeSentiment env.llm summaryText, false⟩
  let store1 :=
    if cfg.CACHE_ENABLED then
      (cacheSet store topic research_type results env.now env.writeOk).1
    else store
  (results, store1,
    [ExtCall.searchNews topic, ExtCall.searchWeb topic,
     ExtCall.completion (LlmCall.summary topic (buildContent topic news web)),
     ExtCall.completion (LlmCall.insights topic summaryText),
     ExtCall.completion (LlmCall.keyFacts summaryText),
     ExtCall.completion (LlmCall.sentiment (pySlice summaryText 500))])

/-- ResearchAgent.research_topic: when caching is enabled, a fresh cache hit is
returned exactly as stored with no external call attempted (a stored results
dict is a non-empty Python dict, hence always truthy); otherwise the miss path
freshResearch runs. -/
def researchTopic (cfg : Config) (env : Env) (store : CacheStore)
    (topic research_type : String) : ResearchRecord × CacheStore × List ExtCall :=
  if cfg.CACHE_ENABLED then
    match cacheGet store topic research_type env.now (ttlSeconds cfg) with
    | some r => (r, store, [])
    | none => freshResearch cfg env store topic research_type
  else freshResearch cfg env store topic research_type

/-! ## Content agent (src/agents/content_agent.py), improve_hook -/

/-- ContentAgent.improve_hook: split the post into lines, ask the Completion
Service for a better hook for the first line, strip it, substitute it for
line 0 and re-join; on failure return the post unchanged. -/
def improveHook (llm : LlmCall → Option String) (currentPost topic : String) : String :=
  let lines := pySplit currentPost
  let currentHook := lines.headD ""
  match llm (LlmCall.improveHook currentHook topic) with
  | some improvedHook => pyJoin (lines.set 0 (pyStrip improvedHook))
  | none => currentPost

/-- Concrete research record used by the witnesses. -/
def sampleRecord : ResearchRecord :=
  ⟨"Anthropic", "company", 0, [], [], "a summary", "an insight", "a fact", "Neutral", false⟩

/-! ## Helper lemmas about the store -/

/-- Reading back a filename just written finds the written content. -/
theorem storeFind_storeWrite (store : CacheStore) (path : String) (f : CacheFile) :
    storeFind (storeWrite store path f) path = some f := by
  induction store with
  | nil => simp [storeWrite, storeFind]
  | cons hd tl ih =>
    obtain ⟨n, g⟩ := hd
    by_cases h : n = path
    · simp [storeWrite, h, storeFind]
    · simp [storeWrite, h, storeFind, ih]

/-! ## Claim C2: cache-key derivation -/

/-- Claim C2, counterexample: the claimed iff fails.  The key string joins the
lowered topic and type with an underscore, so the pairs (a_b, c) and (a, b_c)
produce the identical key string a_b_c and hence identical keys, even though
their lowered topics (and types) differ — an exact collision of the key
construction, not a hash coincidence. -/
theorem cache_key_iff_fails :
    getCacheKey "a_b" "c" = getCacheKey "a" "b_c" ∧
      ¬(pyLower "a_b" = pyLower "a" ∧ pyLower "c" = pyLower "b_c") := by
  constructor
  · exact congrArg md5Hex (by decide)
  · decide

/-- Claim C2 (amended): key derivation is deterministic — lower-equality of
topic and of research type implies equal cache keys.  (The converse direction
of the original iff is refuted by the underscore-ambiguity counterexample.) -/
theorem cache_key_deterministic (t1 t2 r1 r2 : String)
    (ht : pyLower t1 = pyLower t2) (hr : pyLower r1 = pyLower r2) :
    getCacheKey t1 r1 = getCacheKey t2 r2 := by
  unfold getCacheKey keyString
  rw [ht, hr]

/-- Witness for cache_key_deterministic: the spec scenario — a set under
(Anthropic, company) and a get under (anthropic, Company) address one key. -/
theorem cache_key_deterministic_witness :
    getCacheKey "Anthropic" "company" = getCacheKey "anthropic" "Company" :=
  cache_key_deterministic "Anthropic" "anthropic" "company" "Company"
    (by decide) (by decide)

/-! ## Claim C3: freshness boundary -/

/-- Claim C3: an entry written at time T is returned by get exactly at read
times with now - T strictly below the ttl, i.e. strictly before T + ttl, and
is treated as absent at or after T + ttl. -/
theorem cache_freshness_boundary (store : CacheStore) (topic research_type : String)
    (r : ResearchRecord) (T ttl now : Int) :
    (now < T + ttl →
      cacheGet ((cacheSet store topic research_type r T true).1) topic research_type now ttl
        = some r)
    ∧ (T + ttl ≤ now →
      cacheGet ((cacheSet store topic research_type r T true).1) topic research_type now ttl
        = none) := by
  have hfind : storeFind ((cacheSet store topic research_type r T true).1)
      (cachePath topic research_type) = some (CacheFile.entry topic research_type T r) :=
    storeFind_storeWrite store (cachePath topic research_type)
      (CacheFile.entry topic research_type T r)
  constructor
  · intro h
    unfold cacheGet
    rw [hfind]
    exact if_pos (by omega)
  · intro h
    unfold cacheGet
    rw [hfind]
    exact if_neg (by omega)

/-- Witness for cache_freshness_boundary at a concrete entry: written at time
0 with a 24-hour ttl, readable at 86399 seconds and absent at 86400. -/
theorem cache_freshness_boundary_witness :
    cacheGet ((cacheSet [] "Anthropic" "company" sampleRecord 0 true).1)
        "Anthropic" "company" 86399 86400 = some sampleRecord
    ∧ cacheGet ((cacheSet [] "Anthropic" "company" sampleRecord 0 true).1)
        "Anthropic" "company" 86400 86400 = none :=
  ⟨(cache_freshness_boundary [] "Anthropic" "company" sampleRecord 0 86400 86399).1
      (by decide),
   (cache_freshness_boundary [] "Anthropic" "company" sampleRecord 0 86400 86400).2
      (by decide)⟩

/-! ## Claim C4: totality of get and set -/

/-- Claim C4: get is total and returns absent when the stored file is missing,
unreadable (corrupt), readable but without a data payload, or expired; set is
total, reporting a failed write as False and a successful write as True.
Never raising is modelled by cacheGet and cacheSet being total Lean functions
whose every exceptional source path is one of these value-returning cases. -/
theorem cache_store_total (store : CacheStore) (topic research_type : String)
    (r : ResearchRecord) (now ttl : Int) :
    (storeFind store (cachePath topic research_type) = none →
      cacheGet store topic research_type now ttl = none)
    ∧ (storeFind store (cachePath topic research_type) = some CacheFile.corrupt →
      cacheGet store topic research_type now ttl = none)
    ∧ (∀ t0 r0 c0,
        storeFind store (cachePath topic research_type) = some (CacheFile.entryNoData t0 r0 c0) →
        cacheGet store topic research_type now ttl = none)
    ∧ (∀ t0 r0 c0 d0,
        storeFind store (cachePath topic research_type) = some (CacheFile.entry t0 r0 c0 d0) →
        ttl ≤ now - c0 →
        cacheGet store topic research_type now ttl = none)
    ∧ (cacheSet store topic research_type r now false).2 = false
    ∧ (cacheSet store topic research_type r now true).2 = true := by
  refine ⟨?_, ?_, ?_, ?_, rfl, rfl⟩
  · intro h
    unfold cacheGet
    rw [h]
  · intro h
    unfold cacheGet
    rw [h]
  · intro t0 r0 c0 h
    unfold cacheGet
    rw [h]
  · intro t0 r0 c0 d0 h hexp
    unfold cacheGet
    rw [h]
    exact if_neg (by omega)

/-- Witness for cache_store_total: each absent case evaluated at a concrete
store, plus both set outcomes. -/
theorem cache_store_total_witness :
    cacheGet [] "Anthropic" "company" 0 86400 = none
    ∧ cacheGet [(cachePath "Anthropic" "company", CacheFile.corrupt)]
        "Anthropic" "company" 0 86400 = none
    ∧ cacheGet [(cachePath "Anthropic" "company", CacheFile.entryNoData "Anthropic" "company" 0)]
        "Anthropic" "company" 100 86400 = none
    ∧ cacheGet [(cachePath "Anthropic" "company",
          CacheFile.entry "Anthropic" "company" 0 sampleRecord)]
        "Anthropic" "company" 90000 86400 = none
    ∧ (cacheSet [] "Anthropic" "company" sampleRecord 0 false).2 = false
    ∧ (cacheSet [] "Anthropic" "company" sampleRecord 0 true).2 = true :=
  ⟨(cache_store_total [] "Anthropic" "company" sampleRecord 0 86400).1 (by decide),
   (cache_store_total [(cachePath "Anthropic" "company", CacheFile.corrupt)]
      "Anthropic" "company" sampleRecord 0 86400).2.1 (by decide),
   (cache_store_total [(cachePath "Anthropic" "company",
        CacheFile.entryNoData "Anthropic" "company" 0)]
      "Anthropic" "company" sampleRecord 100 86400).2.2.1 "Anthropic" "company" 0 (by decide),
   (cache_store_total [(cachePath "Anthropic" "company",
        CacheFile.entry "Anthropic" "company" 0 sampleRecord)]
      "Anthropic" "company" sampleRecord 90000 86400).2.2.2.1 "Anthropic" "company" 0
      sampleRecord (by decide) (by decide),
   (cache_store_total [] "Anthropic" "company" sampleRecord 0 86400).2.2.2.2.1,
   (cache_store_total [] "Anthropic" "company" sampleRecord 0 86400).2.2.2.2.2⟩

/-! ## Claim C5: the stats census -/

/-- Whether a file counts as valid in get_cache_stats. -/
def isFreshFile (now ttl : Int) (f : CacheFile) : Bool :=
  match fileCachedAt f with
  | some c => decide (now - c < ttl)
  | none => false

/-- Whether a file counts as expired in get_cache_stats. -/
def isExpiredFile (now ttl : Int) (f : CacheFile) : Bool :=
  match fileCachedAt f with
  | some c => decide (ttl ≤ now - c)
  | none => false

/-- When every listed file parses, the stats loop completes and accumulates the
fresh and expired counts. -/
theorem statsGo_clean (now ttl : Int) :
    ∀ (files : List (String × CacheFile)) (v e : Nat),
      (∀ p ∈ files, parses p.2 = true) →
      statsGo now ttl files v e =
        some (v + files.countP (fun p => isFreshFile now ttl p.2),
              e + files.countP (fun p => isExpiredFile now ttl p.2)) := by
  intro files
  induction files with
  | nil => intro v e _; simp [statsGo]
  | cons hd tl ih =>
    intro v e hall
    have hp : parses hd.2 = true := hall hd (List.mem_cons_self _ _)
    have htl : ∀ p ∈ tl, parses p.2 = true := fun p hp' => hall p (List.mem_cons_of_mem _ hp')
    obtain ⟨c, hc⟩ : ∃ c, fileCachedAt hd.2 = some c := by
      cases h2 : hd.2 with
      | corrupt => rw [h2] at hp; simp [parses] at hp
      | entry t0 r0 c0 d0 => exact ⟨c0, by simp [fileCachedAt]⟩
      | entryNoData t0 r0 c0 => exact ⟨c0, by simp [fileCachedAt]⟩
    obtain ⟨n, f⟩ := hd
    by_cases hfr : now - c < ttl
    · have hf : isFreshFile now ttl f = true := by simp [isFreshFile, hc, hfr]
      have he : isExpiredFile now ttl f = false := by
        simp only [isExpiredFile, hc]
        simp
        omega
      have hstep : statsGo now ttl ((n, f) :: tl) v e = statsGo now ttl tl (v + 1) e := by
        simp [statsGo, hc, hfr]
      rw [hstep, ih (v + 1) e htl]
      simp [List.countP_cons, hf, he]
      omega
    · have hf : isFreshFile now ttl f = false := by simp [isFreshFile, hc, hfr]
      have he : isExpiredFile now ttl f = true := by
        simp only [isExpiredFile, hc]
        simp
        omega
      have hstep : statsGo now ttl ((n, f) :: tl) v e = statsGo now ttl tl v (e + 1) := by
        simp [statsGo, hc, hfr]
      rw [hstep, ih v (e + 1) htl]
      simp [List.countP_cons, hf, he]
      omega

/-- A parseable file is counted by exactly one of the two classifications. -/
theorem countP_fresh_add_expired (now ttl : Int) :
    ∀ (files : List (String × CacheFile)),
      (∀ p ∈ files, parses p.2 = true) →
      files.countP (fun p => isFreshFile now ttl p.2)
        + files.countP (fun p => isExpiredFile now ttl p.2) = files.length := by
  intro files
  induction files with
  | nil => simp
  | cons hd tl ih =>
    intro hall
    have hp : parses hd.2 = true := hall hd (List.mem_cons_self _ _)
    have htl : ∀ p ∈ tl, parses p.2 = true := fun p hp' => hall p (List.mem_cons_of_mem _ hp')
    have hrec := ih htl
    obtain ⟨c, hc⟩ : ∃ c, fileCachedAt hd.2 = some c := by
      cases h2 : hd.2 with
      | corrupt => rw [h2] at hp; simp [parses] at hp
      | entry t0 r0 c0 d0 => exact ⟨c0, by simp [fileCachedAt]⟩
      | entryNoData t0 r0 c0 => exact ⟨c0, by simp [fileCachedAt]⟩
    by_cases hfr : now - c < ttl
    · have hf : isFreshFile now ttl hd.2 = true := by simp [isFreshFile, hc, hfr]
      have he : isExpiredFile now ttl hd.2 = false := by
        simp only [isExpiredFile, hc]
        simp
        omega
      simp [List.countP_cons, hf, he]
      omega
    · have hf : isFreshFile now ttl hd.2 = false := by simp [isFreshFile, hc, hfr]
      have he : isExpiredFile now ttl hd.2 = true := by
        simp only [isExpiredFile, hc]
        simp
        omega
      simp [List.countP_cons, hf, he]
      omega

/-- Claim C5, counterexample: with a single unreadable .json file in the
directory, get_cache_stats degrades to the zero record, so the reported total
is not the number of stored entries (and the entry is never classified). -/
theorem stats_corrupt_undercounts :
    getCacheStats [("00.json", CacheFile.corrupt)] 0 86400 = ⟨0, 0, 0⟩
    ∧ (getCacheStats [("00.json", CacheFile.corrupt)] 0 86400).total ≠
        (List.filter (fun p => pyEndsWith p.1 ".json")
          [(("00.json" : String), CacheFile.corrupt)]).length := by
  exact ⟨by decide, by decide⟩

/-- Claim C5 (amended): get_cache_stats never mutates the store and never
raises (it is a pure total function of the directory).  When every stored
.json entry is readable it classifies each against the current ttl, with
total = number of stored entries = valid + expired.  When some stored entry is
unreadable, the census is abandoned and the zero record is returned instead
(the original claim's total = number of stored entries fails there). -/
theorem stats_census (store : CacheStore) (now ttl : Int)
    (hclean : ∀ p ∈ store, pyEndsWith p.1 ".json" = true → parses p.2 = true) :
    (getCacheStats store now ttl).total
      = (store.filter (fun p => pyEndsWith p.1 ".json")).length
    ∧ (getCacheStats store now ttl).total
      = (getCacheStats store now ttl).valid + (getCacheStats store now ttl).expired
    ∧ (getCacheStats store now ttl).valid
      = (store.filter (fun p => pyEndsWith p.1 ".json")).countP
          (fun p => isFreshFile now ttl p.2)
    ∧ (getCacheStats store now ttl).expired
      = (store.filter (fun p => pyEndsWith p.1 ".json")).countP
          (fun p => isExpiredFile now ttl p.2) := by
  have hfiles : ∀ p ∈ store.filter (fun p => pyEndsWith p.1 ".json"), parses p.2 = true := by
    intro p hp
    obtain ⟨hmem, hj⟩ := List.mem_filter.mp hp
    exact hclean p hmem hj
  have hgo := statsGo_clean now ttl (store.filter (fun p => pyEndsWith p.1 ".json")) 0 0 hfiles
  have hsum := countP_fresh_add_expired now ttl
    (store.filter (fun p => pyEndsWith p.1 ".json")) hfiles
  have hstats : getCacheStats store now ttl
      = ⟨(store.filter (fun p => pyEndsWith p.1 ".json")).length,
         (store.filter (fun p => pyEndsWith p.1 ".json")).countP
           (fun p => isFreshFile now ttl p.2),
         (store.filter (fun p => pyEndsWith p.1 ".json")).countP
           (fun p => isExpiredFile now ttl p.2)⟩ := by
    simp only [getCacheStats, hgo, Nat.zero_add]
  rw [hstats]
  exact ⟨rfl, by simpa using hsum.symm, rfl, rfl⟩

/-- Concrete directory for the stats witness: one fresh entry, one expired
entry, one non-json file. -/
def statsStoreW : CacheStore :=
  [("aa.json", CacheFile.entry "a" "t" 0 sampleRecord),
   ("bb.json", CacheFile.entry "b" "t" (-100000) sampleRecord),
   ("note.txt", CacheFile.corrupt)]

/-- Witness for stats_census: one fresh and one expired entry beside a
non-json file give total 2 = 1 + 1. -/
theorem stats_census_witness :
    (getCacheStats statsStoreW 10 86400).total = 2
    ∧ (getCacheStats statsStoreW 10 86400).valid = 1
    ∧ (getCacheStats statsStoreW 10 86400).expired = 1 := by
  obtain ⟨h1, _, h3, h4⟩ := stats_census statsStoreW 10 86400 (by decide)
  refine ⟨?_, ?_, ?_⟩
  · rw [h1]; decide
  · rw [h3]; decide
  · rw [h4]; decide

/-! ## Claim C10: clear_all -/

/-- os.remove of one name keeps every file with a different name. -/
theorem storeRemove_mem (st : CacheStore) (n : String) (p : String × CacheFile)
    (hmem : p ∈ st) (hne : p.1 ≠ n) : p ∈ storeRemove st n := by
  induction st with
  | nil => cases hmem
  | cons hd tl ih =>
    obtain ⟨m, g⟩ := hd
    rcases List.mem_cons.mp hmem with h | h
    · subst h
      simp only [storeRemove, if_neg hne]
      exact List.mem_cons_self _ _
    · by_cases hm : m = n
      · simpa [storeRemove, hm] using ih h
      · simp only [storeRemove, if_neg hm]
        exact List.mem_cons_of_mem _ (ih h)

/-- The clear_all loop removes only names ending in .json, so every other file
survives it. -/
theorem clearAllGo_preserves (p : String × CacheFile) :
    ∀ (ns : List String) (st : CacheStore) (count : Nat) (failAt : Option Nat),
      p ∈ st → pyEndsWith p.1 ".json" = false →
      p ∈ (clearAllGo st ns count failAt).1 := by
  intro ns
  induction ns with
  | nil => intro st count failAt hmem _; simpa [clearAllGo] using hmem
  | cons n ns ih =>
    intro st count failAt hmem hnj
    by_cases hj : pyEndsWith n ".json" = true
    · have hne : p.1 ≠ n := by
        intro h
        rw [h, hj] at hnj
        cases hnj
      have hkeep : p ∈ storeRemove st n := storeRemove_mem st n p hmem hne
      cases failAt with
      | none => simpa [clearAllGo, hj] using ih _ _ _ hkeep hnj
      | some k =>
        cases k with
        | zero => simpa [clearAllGo, hj] using hmem
        | succ k => simpa [clearAllGo, hj] using ih _ _ _ hkeep hnj
    · have hj' : pyEndsWith n ".json" = false := by
        cases h : pyEndsWith n ".json"
        · rfl
        · exact absurd h hj
      simpa [clearAllGo, hj'] using ih _ _ _ hmem hnj

/-- If the removal failure index falls inside the list of .json names, the loop
aborts with an exception (none). -/
theorem clearAllGo_fail :
    ∀ (ns : List String) (st : CacheStore) (count : Nat) (k : Nat),
      k < ns.countP (fun n => pyEndsWith n ".json") →
      (clearAllGo st ns count (some k)).2 = none := by
  intro ns
  induction ns with
  | nil => intro st count k hk; simp at hk
  | cons n ns ih =>
    intro st count k hk
    by_cases hj : pyEndsWith n ".json" = true
    · cases k with
      | zero => simp [clearAllGo, hj]
      | succ k =>
        have hk' : k < ns.countP (fun n => pyEndsWith n ".json") := by
          simp [List.countP_cons, hj] at hk
          omega
        simpa [clearAllGo, hj] using ih _ _ _ hk'
    · have hj' : pyEndsWith n ".json" = false := by
        cases h : pyEndsWith n ".json"
        · rfl
        · exact absurd h hj
      have hk' : k < ns.countP (fun n => pyEndsWith n ".json") := by
        simp [List.countP_cons, hj'] at hk
        omega
      simpa [clearAllGo, hj'] using ih _ _ _ hk'

/-- With no removal failure, the loop returns the running count plus the number
of .json names. -/
theorem clearAllGo_none :
    ∀ (ns : List String) (st : CacheStore) (count : Nat),
      (clearAllGo st ns count none).2
        = some (count + ns.countP (fun n => pyEndsWith n ".json")) := by
  intro ns
  induction ns with
  | nil => intro st count; simp [clearAllGo]
  | cons n ns ih =>
    intro st count
    by_cases hj : pyEndsWith n ".json" = true
    · rw [show clearAllGo st (n :: ns) count none
          = clearAllGo (storeRemove st n) ns (count + 1) none by simp [clearAllGo, hj]]
      rw [ih _ _, List.countP_cons, hj]
      simp
      omega
    · have hj' : pyEndsWith n ".json" = false := by
        cases h : pyEndsWith n ".json"
        · rfl
        · exact absurd h hj
      rw [show clearAllGo st (n :: ns) count none
          = clearAllGo st ns count none by simp [clearAllGo, hj']]
      rw [ih _ _, List.countP_cons, hj']
      simp

/-- Claim C10: clear_all is total (never raises: every failure mode is caught
and mapped to a return value); it removes only files whose name ends in .json,
so every other file is still present afterwards; a failed listing returns 0
with nothing removed; a removal failure makes it return 0 even though the
.json files walked before the failure were already deleted, so the count
under-reports; and on full success the count is the number of .json files. -/
theorem clear_all_total (store : CacheStore) (listOk : Bool) (failAt : Option Nat) :
    (∀ p ∈ store, pyEndsWith p.1 ".json" = false → p ∈ (clearAll store listOk failAt).1)
    ∧ (listOk = false → clearAll store listOk failAt = (store, 0))
    ∧ (∀ k, failAt = some k →
        k < (store.map Prod.fst).countP (fun n => pyEndsWith n ".json") →
        (clearAll store listOk failAt).2 = 0)
    ∧ (listOk = true → failAt = none →
        (clearAll store listOk failAt).2
          = (store.map Prod.fst).countP (fun n => pyEndsWith n ".json")) := by
  refine ⟨?_, ?_, ?_, ?_⟩
  · intro p hmem hnj
    cases listOk with
    | false => simpa [clearAll] using hmem
    | true =>
      have hgo := clearAllGo_preserves p (store.map Prod.fst) store 0 failAt hmem hnj
      rcases hres : clearAllGo store (store.map Prod.fst) 0 failAt with ⟨st, oc⟩
      rw [hres] at hgo
      cases oc with
      | none => simpa [clearAll, hres] using hgo
      | some c => simpa [clearAll, hres] using hgo
  · intro h
    subst h
    rfl
  · intro k hfa hk
    subst hfa
    cases listOk with
    | false => rfl
    | true =>
      have hgo := clearAllGo_fail (store.map Prod.fst) store 0 k hk
      rcases hres : clearAllGo store (store.map Prod.fst) 0 (some k) with ⟨st, oc⟩
      rw [hres] at hgo
      cases oc with
      | none => simp [clearAll, hres]
      | some c => simp at hgo
  · intro hl hfa
    subst hl
    subst hfa
    have hgo := clearAllGo_none (store.map Prod.fst) store 0
    rcases hres : clearAllGo store (store.map Prod.fst) 0 none with ⟨st, oc⟩
    rw [hres] at hgo
    cases oc with
    | none => simp at hgo
    | some c =>
      simp only [Option.some.injEq] at hgo
      simp [clearAll, hres, hgo]

/-- Concrete directory for the clear_all witness. -/
def clearStoreW : CacheStore :=
  [("a.json", CacheFile.corrupt), ("b.json", CacheFile.corrupt), ("keep.txt", CacheFile.corrupt)]

/-- Witness for clear_all_total: with the second removal failing, the non-json
file survives and the returned count is 0 although a.json was already removed;
with no failure the count is 2. -/
theorem clear_all_total_witness :
    ("keep.txt", CacheFile.corrupt) ∈ (clearAll clearStoreW true (some 1)).1
    ∧ (clearAll clearStoreW true (some 1)).2 = 0
    ∧ (clearAll clearStoreW true none).2 = 2
    ∧ ("a.json", CacheFile.corrupt) ∉ (clearAll clearStoreW true (some 1)).1 :=
  ⟨(clear_all_total clearStoreW true (some 1)).1 ("keep.txt", CacheFile.corrupt)
      (by decide) (by decide),
   (clear_all_total clearStoreW true (some 1)).2.2.1 1 rfl (by decide),
   by
     rw [(clear_all_total clearStoreW true none).2.2.2 rfl rfl]
     decide,
   by decide⟩

/-! ## Research orchestrator claims C1, C6, C7, C8 -/

/-- Research environment where every external collaborator fails, at time 0. -/
def envA : Env := ⟨fun _ => none, fun _ => none, fun _ => none, 0, true⟩

/-- The same failing environment one hour later. -/
def envB : Env := ⟨fun _ => none, fun _ => none, fun _ => none, 3600, true⟩

/-- Environment whose Completion Service answers only the sentiment call, with
a value outside the three expected labels. -/
def envS : Env :=
  ⟨fun _ => none, fun _ => none,
   fun call =>
     match call with
     | LlmCall.sentiment _ => some " Bullish "
     | _ => none,
   0, true⟩

/-- When caching is disabled or the cache lookup misses, research_topic runs
the miss path. -/
theorem researchTopic_eq_fresh (cfg : Config) (env : Env) (store : CacheStore)
    (topic research_type : String)
    (hmiss : cfg.CACHE_ENABLED = true →
      cacheGet store topic research_type env.now (ttlSeconds cfg) = none) :
    researchTopic cfg env store topic research_type
      = freshResearch cfg env store topic research_type := by
  cases hce : cfg.CACHE_ENABLED
  · simp [researchTopic, hce]
  · simp [researchTopic, hce, hmiss hce]

/-- Claim C1 (code bug), evaluated at the failing input: a first research run
under the all-fallback environment stores its record; an identical request one
hour later is served from the cache with no external call attempted and
returns the stored record bit-identically — but that record's cached field is
false, not true, because research_topic writes cached = False and the hit path
returns the stored record unmodified. -/
theorem research_topic_hit_keeps_cached_false :
    ((researchTopic defaultConfig envB
        (researchTopic defaultConfig envA [] "Anthropic" "company").2.1
        "Anthropic" "company").2.2 = [])
    ∧ (researchTopic defaultConfig envB
        (researchTopic defaultConfig envA [] "Anthropic" "company").2.1
        "Anthropic" "company").1
      = (researchTopic defaultConfig envA [] "Anthropic" "company").1
    ∧ (researchTopic defaultConfig envB
        (researchTopic defaultConfig envA [] "Anthropic" "company").2.1
        "Anthropic" "company").1.cached = false := by
  refine ⟨by decide, by decide, by decide⟩

/-- Claim C6, counterexample: a request with the empty topic is not rejected —
research_topic attempts the external news search with the empty query. -/
theorem empty_topic_reaches_search :
    ExtCall.searchNews "" ∈ (researchTopic defaultConfig envA [] "" "company").2.2 := by
  decide

/-- Claim C6 (amended): research_topic performs no topic validation; on any
cache miss (or with caching disabled) a request with the empty topic proceeds
straight to the external fan-out, whose first attempted call is the news
search with the empty query. -/
theorem research_topic_no_topic_validation (cfg : Config) (env : Env) (store : CacheStore)
    (research_type : String)
    (hmiss : cfg.CACHE_ENABLED = true →
      cacheGet store "" research_type env.now (ttlSeconds cfg) = none) :
    ((researchTopic cfg env store "" research_type).2.2).head?
      = some (ExtCall.searchNews "") := by
  rw [researchTopic_eq_fresh cfg env store "" research_type hmiss]
  rfl

/-- Witness for research_topic_no_topic_validation on the empty store. -/
theorem research_topic_no_topic_validation_witness :
    ((researchTopic defaultConfig envA [] "" "company").2.2).head?
      = some (ExtCall.searchNews "") :=
  research_topic_no_topic_validation defaultConfig envA [] "company" (fun _ => by decide)

/-- Claim C7: when every Completion Service call fails, a research run still
returns a complete record whose summary is the raw concatenated source blob,
whose insights are the apology string, whose key facts are empty, and whose
sentiment is Neutral; the echoed fields and search results are intact and the
record is marked as fresh. -/
theorem completion_failure_fallbacks (cfg : Config) (env : Env) (store : CacheStore)
    (topic research_type : String)
    (hllm : ∀ call, env.llm call = none)
    (hmiss : cfg.CACHE_ENABLED = true →
      cacheGet store topic research_type env.now (ttlSeconds cfg) = none) :
    ((researchTopic cfg env store topic research_type).1).summary
      = buildContent topic (searchNewsFn cfg env topic) (searchWebFn env topic)
    ∧ ((researchTopic cfg env store topic research_type).1).insights
      = "Unable to extract insights"
    ∧ ((researchTopic cfg env store topic research_type).1).key_facts = ""
    ∧ ((researchTopic cfg env store topic research_type).1).sentiment = "Neutral"
    ∧ ((researchTopic cfg env store topic research_type).1).topic = topic
    ∧ ((researchTopic cfg env store topic research_type).1).research_type = research_type
    ∧ ((researchTopic cfg env store topic research_type).1).timestamp = env.now
    ∧ ((researchTopic cfg env store topic research_type).1).news_articles
      = searchNewsFn cfg env topic
    ∧ ((researchTopic cfg env store topic research_type).1).web_results
      = searchWebFn env topic
    ∧ ((researchTopic cfg env store topic research_type).1).cached = false := by
  rw [researchTopic_eq_fresh cfg env store topic research_type hmiss]
  simp [freshResearch, generateSummary, extractInsights, extractKeyFacts, analyzeSentiment,
    hllm]

/-- Witness for completion_failure_fallbacks under the all-failing environment. -/
theorem completion_failure_fallbacks_witness :
    ((researchTopic defaultConfig envA [] "Anthropic" "company").1).summary
      = buildContent "Anthropic" (searchNewsFn defaultConfig envA "Anthropic")
          (searchWebFn envA "Anthropic")
    ∧ ((researchTopic defaultConfig envA [] "Anthropic" "company").1).insights
      = "Unable to extract insights"
    ∧ ((researchTopic defaultConfig envA [] "Anthropic" "company").1).key_facts = ""
    ∧ ((researchTopic defaultConfig envA [] "Anthropic" "company").1).sentiment = "Neutral" :=
  ⟨(completion_failure_fallbacks defaultConfig envA [] "Anthropic" "company"
      (fun _ => rfl) (fun _ => by decide)).1,
   (completion_failure_fallbacks defaultConfig envA [] "Anthropic" "company"
      (fun _ => rfl) (fun _ => by decide)).2.1,
   (completion_failure_fallbacks defaultConfig envA [] "Anthropic" "company"
      (fun _ => rfl) (fun _ => by decide)).2.2.1,
   (completion_failure_fallbacks defaultConfig envA [] "Anthropic" "company"
      (fun _ => rfl) (fun _ => by decide)).2.2.2.1⟩

/-- Claim C8, counterexample: with the Completion Service answering the
sentiment prompt with a string of its own choosing, the record produced by
research_topic carries that (stripped) string — the sentiment field is not
restricted to Positive, Negative or Neutral. -/
theorem sentiment_unconstrained :
    ((researchTopic defaultConfig envS [] "Anthropic" "company").1).sentiment = "Bullish"
    ∧ ((researchTopic defaultConfig envS [] "Anthropic" "company").1).sentiment ≠ "Positive"
    ∧ ((researchTopic defaultConfig envS [] "Anthropic" "company").1).sentiment ≠ "Negative"
    ∧ ((researchTopic defaultConfig envS [] "Anthropic" "company").1).sentiment ≠ "Neutral" := by
  refine ⟨by decide, by decide, by decide, by decide⟩

/-- Claim C8 (amended): on a research run the sentiment field equals the
stripped Completion Service output when the sentiment call succeeds — with no
validation against the three labels — and equals Neutral exactly when the call
fails; only the failure fallback is guaranteed to be one of the three
values. -/
theorem sentiment_llm_or_fallback (cfg : Config) (env : Env) (store : CacheStore)
    (topic research_type : String)
    (hmiss : cfg.CACHE_ENABLED = true →
      cacheGet store topic research_type env.now (ttlSeconds cfg) = none) :
    (∀ s, env.llm (LlmCall.sentiment (pySlice (generateSummary env.llm topic
        (searchNewsFn cfg env topic) (searchWebFn env topic)) 500)) = some s →
      ((researchTopic cfg env store topic research_type).1).sentiment = pyStrip s)
    ∧ (env.llm (LlmCall.sentiment (pySlice (generateSummary env.llm topic
        (searchNewsFn cfg env topic) (searchWebFn env topic)) 500)) = none →
      ((researchTopic cfg env store topic research_type).1).sentiment = "Neutral") := by
  rw [researchTopic_eq_fresh cfg env store topic research_type hmiss]
  constructor
  · intro s hs
    simp [freshResearch, analyzeSentiment, hs]
  · intro hs
    simp [freshResearch, analyzeSentiment, hs]

/-- Witness for sentiment_llm_or_fallback: the success branch under the
Bullish environment and the failure branch under the all-failing one. -/
theorem sentiment_llm_or_fallback_witness :
    ((researchTopic defaultConfig envS [] "Anthropic" "company").1).sentiment
      = pyStrip " Bullish "
    ∧ ((researchTopic defaultConfig envA [] "Anthropic" "company").1).sentiment = "Neutral" :=
  ⟨(sentiment_llm_or_fallback defaultConfig envS [] "Anthropic" "company"
      (fun _ => by decide)).1 " Bullish " rfl,
   (sentiment_llm_or_fallback defaultConfig envA [] "Anthropic" "company"
      (fun _ => by decide)).2 rfl⟩

/-! ## Claim C9: improve_hook -/

/-- The split of a character list is never empty (Python split always yields at
least one part). -/
theorem splitChar_ne_nil (c : Char) : ∀ l : List Char, splitChar c l ≠ [] := by
  intro l
  induction l with
  | nil => simp [splitChar]
  | cons x xs ih =>
    simp only [splitChar]
    by_cases h : x = c
    · simp [h]
    · rcases hr : splitChar c xs with _ | ⟨p, ps⟩
      · exact absurd hr ih
      · simp [h, hr]

/-- No part produced by the split contains the separator. -/
theorem mem_splitChar_not_mem (c : Char) :
    ∀ (l p : List Char), p ∈ splitChar c l → c ∉ p := by
  intro l
  induction l with
  | nil =>
    intro p hp
    simp [splitChar] at hp
    simp [hp]
  | cons x xs ih =>
    intro p hp
    by_cases hx : x = c
    · simp only [splitChar, if_pos hx] at hp
      rcases List.mem_cons.mp hp with h | h
      · simp [h]
      · exact ih p h
    · rcases hr : splitChar c xs with _ | ⟨q, qs⟩
      · exact absurd hr (splitChar_ne_nil c xs)
      · simp only [splitChar, if_neg hx, hr] at hp
        rcases List.mem_cons.mp hp with h | h
        · subst h
          intro hmem
          rcases List.mem_cons.mp hmem with h1 | h1
          · exact hx h1.symm
          · exact ih q (by rw [hr]; exact List.mem_cons_self _ _) h1
        · exact ih p (by rw [hr]; exact List.mem_cons_of_mem _ h)

/-- Splitting a list free of the separator yields that single part. -/
theorem splitChar_no_sep (c : Char) :
    ∀ l : List Char, c ∉ l → splitChar c l = [l] := by
  intro l
  induction l with
  | nil => intro _; rfl
  | cons x xs ih =>
    intro h
    have hx : x ≠ c := fun hc => h (hc ▸ List.mem_cons_self _ _)
    have hxs : c ∉ xs := fun hc => h (List.mem_cons_of_mem _ hc)
    simp [splitChar, hx, ih hxs]

/-- Splitting peels off a separator-free part before a separator. -/
theorem splitChar_append_sep (c : Char) :
    ∀ (p r : List Char), c ∉ p → splitChar c (p ++ c :: r) = p :: splitChar c r := by
  intro p
  induction p with
  | nil => intro r _; simp [splitChar]
  | cons a p' ih =>
    intro r h
    have ha : a ≠ c := fun hc => h (hc ▸ List.mem_cons_self _ _)
    have hp' : c ∉ p' := fun hc => h (List.mem_cons_of_mem _ hc)
    simp only [List.cons_append, splitChar, if_neg ha]
    rw [List.append_eq, ih r hp']

/-- Splitting inverts joining when every part is separator-free. -/
theorem splitChar_joinChar (c : Char) :
    ∀ parts : List (List Char), parts ≠ [] → (∀ p ∈ parts, c ∉ p) →
      splitChar c (joinChar c parts) = parts := by
  intro parts
  induction parts with
  | nil => intro hne _; exact absurd rfl hne
  | cons p rest ih =>
    intro _ hall
    cases rest with
    | nil =>
      show splitChar c (joinChar c [p]) = [p]
      rw [show joinChar c [p] = p from rfl]
      exact splitChar_no_sep c p (hall p (List.mem_cons_self _ _))
    | cons q ps =>
      rw [show joinChar c (p :: q :: ps) = p ++ c :: joinChar c (q :: ps) from rfl]
      rw [splitChar_append_sep c p _ (hall p (List.mem_cons_self _ _))]
      rw [ih (by simp) (fun x hx => hall x (List.mem_cons_of_mem _ hx))]

/-- A String rebuilt from its character data is itself. -/
theorem string_mk_data (s : String) : String.mk s.data = s := by
  cases s
  rfl

/-- Joining then splitting newline-free lines is the identity. -/
theorem pySplit_pyJoin (ls : List String) (hne : ls ≠ [])
    (h : ∀ s ∈ ls, '\n' ∉ s.data) : pySplit (pyJoin ls) = ls := by
  unfold pySplit pyJoin
  rw [show (String.mk (joinChar '\n' (ls.map String.data))).data
      = joinChar '\n' (ls.map String.data) from rfl]
  rw [splitChar_joinChar '\n' (ls.map String.data) (by simpa using hne) ?hmem]
  · have hid : String.mk ∘ String.data = id := funext string_mk_data
    rw [List.map_map, hid, List.map_id]
  case hmem =>
    intro p hp
    obtain ⟨s, hs, rfl⟩ := List.mem_map.mp hp
    exact h s hs

/-- Claim C9: improve_hook touches only the first line.  On a failed
Completion call it returns the post unchanged.  On a successful call the
result is exactly the original line list with index 0 replaced by the stripped
Completion output and re-joined; in particular, when that replacement is
itself a single line, splitting the result again gives the new hook followed
by every original line after the first, unchanged and in order. -/
theorem improve_hook_first_line_only (llm : LlmCall → Option String) (post topic : String) :
    (llm (LlmCall.improveHook ((pySplit post).headD "") topic) = none →
      improveHook llm post topic = post)
    ∧ (∀ out, llm (LlmCall.improveHook ((pySplit post).headD "") topic) = some out →
      improveHook llm post topic = pyJoin (pyStrip out :: (pySplit post).tail)
      ∧ ('\n' ∉ (pyStrip out).data →
        pySplit (improveHook llm post topic) = pyStrip out :: (pySplit post).tail)) := by
  rcases hsp : splitChar '\n' post.data with _ | ⟨h0, t0⟩
  · exact absurd hsp (splitChar_ne_nil '\n' post.data)
  have hsp' : pySplit post = String.mk h0 :: t0.map String.mk := by
    simp [pySplit, hsp]
  constructor
  · intro hnone
    simp only [improveHook]
    rw [hnone]
  · intro out hout
    have hres : improveHook llm post topic = pyJoin (pyStrip out :: (pySplit post).tail) := by
      simp only [improveHook]
      rw [hout, hsp']
      rfl
    refine ⟨hres, ?_⟩
    intro hnl
    rw [hres]
    apply pySplit_pyJoin
    · simp
    · intro s hs
      rcases List.mem_cons.mp hs with h | h
      · subst h
        exact hnl
      · rw [hsp'] at h
        obtain ⟨q, hq, rfl⟩ := List.mem_map.mp (by simpa using h)
        exact mem_splitChar_not_mem '\n' post.data q
          (by rw [hsp]; exact List.mem_cons_of_mem _ hq)

/-- Completion collaborator for the improve_hook witness: answers every hook
request with a fixed replacement needing a strip. -/
def llmHookSome : LlmCall → Option String :=
  fun call =>
    match call with
    | LlmCall.improveHook _ _ => some " A sharper hook "
    | _ => none

/-- Completion collaborator that always fails. -/
def llmHookNone : LlmCall → Option String := fun _ => none

/-- Witness for improve_hook_first_line_only: a three-line post keeps its two
body lines verbatim and in order under a successful hook replacement, and is
returned unchanged when the Completion call fails. -/
theorem improve_hook_first_line_only_witness :
    improveHook llmHookSome "Old hook\nBody A\nBody B" "ai"
      = pyJoin (pyStrip " A sharper hook " :: (pySplit "Old hook\nBody A\nBody B").tail)
    ∧ pySplit (improveHook llmHookSome "Old hook\nBody A\nBody B" "ai")
      = pyStrip " A sharper hook " :: (pySplit "Old hook\nBody A\nBody B").tail
    ∧ improveHook llmHookNone "Old hook\nBody A" "ai" = "Old hook\nBody A" :=
  ⟨((improve_hook_first_line_only llmHookSome "Old hook\nBody A\nBody B" "ai").2
      " A sharper hook " rfl).1,
   ((improve_hook_first_line_only llmHookSome "Old hook\nBody A\nBody B" "ai").2
      " A sharper hook " rfl).2 (by decide),
   (improve_hook_first_line_only llmHookNone "Old hook\nBody A" "ai").1 rfl⟩
